import Mathlib

/-!
Shallow embedding of the RTP packet-processing pipeline of `main.go`:
the worker-pool dispatch loop `processRTPPackets` and the batching
writer `writeToFFmpeg` of the `streamHandler` type.

Concurrency is modelled by an explicit interleaving of atomic events:
the dispatch loop's actions (a successful `ReadRTP` followed by the
non-blocking worker acquire, a read error or `done` signal followed by
the deferred `close(h.processedChan)`) and the completion of an
in-flight worker goroutine (its non-blocking offer to `processedChan`
followed by the deferred slot release).  The writer goroutine is
modelled by its own event stream: a receive of a buffered payload, a
ticker expiry, and the closed-and-empty receive (`ok = false`).
Real time enters only through the timestamps carried by events (for the
metrics clock) and through tick events (for the flush timer).
-/

namespace StreamPipeline

/-- A packet payload: a `[]byte` of the Go code. -/
abbrev Payload := List Nat

/-- `batchSize` constant of `writeToFFmpeg` (`const batchSize = 5`). -/
def batchSize : Nat := 5

/-- The flush-ticker period of `writeToFFmpeg` in milliseconds
(`time.NewTicker(5 * time.Millisecond)`). -/
def flushIntervalMs : Nat := 5

/-- The metrics reporting interval in milliseconds
(`time.Since(lastMetricTime) >= time.Second`). -/
def metricsIntervalMs : Nat := 1000

/-- The capacity of `rtpChan` and `processedChan`
(`make(chan []byte, 100)`). -/
def chanCapacity : Nat := 100

/-- The configuration a `streamHandler` value carries: the worker-pool
size (`workerCount`), the buffer capacity of `processedChan`, and the
`metricsEnabled` flag. -/
structure DispatchConfig where
  workerCount : Nat
  queueCap : Nat
  metricsEnabled : Bool
  deriving Repr, DecidableEq

/-- `newStreamHandler(workers)`: `processedChan` gets buffer 100 and
`metricsEnabled` is set to `true`. -/
def newStreamHandler (workers : Nat) : DispatchConfig :=
  { workerCount := workers, queueCap := chanCapacity, metricsEnabled := true }

/-- The handler built in `main`: `newStreamHandler(4)`. -/
def mainConfig : DispatchConfig := newStreamHandler 4

/-- The state of the dispatch side of the pipeline.

`pending` holds the payloads of the worker goroutines that have
acquired a slot (`workers <- struct{}{}`) but have not yet performed
their offer-and-release; its length is the occupancy of the `workers`
channel, i.e. the number of transforms in flight.  `queue` is the
buffer of `processedChan`; `closed` records that
`close(h.processedChan)` has run; `panicked` records a send on the
closed channel (a Go runtime panic).  `packetCounter` and
`lastMetricTime` are the loop-local metrics variables; `reports` the
values printed by `fmt.Printf("Processed %d packets/sec", ...)`;
`drops` the number of drop messages printed (either
"Worker pool full, dropping packet" or "Packet dropped: buffer full").
`processedTotal` and `attempts` are ghost instrumentation: the
cumulative number of `packetCounter` increments and the number of
dispatch attempts (successful `ReadRTP` calls). -/
structure DispatchState where
  pending : List Payload
  queue : List Payload
  closed : Bool
  panicked : Bool
  packetCounter : Nat
  lastMetricTime : Nat
  reports : List Nat
  drops : Nat
  processedTotal : Nat
  attempts : Nat
  deriving Repr, DecidableEq

/-- The state of `processRTPPackets` when its loop starts: no worker in
flight, empty channel, counters zero, `lastMetricTime := time.Now()`
taken as instant `0`. -/
def initDispatch : DispatchState :=
  { pending := [], queue := [], closed := false, panicked := false,
    packetCounter := 0, lastMetricTime := 0, reports := [],
    drops := 0, processedTotal := 0, attempts := 0 }

/-- Atomic events of the dispatch side.

`read p` is one iteration of the loop in which `track.ReadRTP()`
returns a packet with payload `p` and the non-blocking acquire-and-go
is attempted.  `finish i t` is the completion, at instant `t`, of the
in-flight worker goroutine holding the `i`-th pending payload: its
non-blocking `select` offer to `processedChan` together with the
deferred `<-workers` release.  `readErr` is a `ReadRTP` error or a
`h.done` signal: the loop returns and the deferred
`close(h.processedChan)` runs. -/
inductive DEvent where
  | read (p : Payload)
  | finish (i : Nat) (t : Nat)
  | readErr
  deriving Repr, DecidableEq

/-- One atomic step of the dispatch side of `processRTPPackets`.

A `read` after the loop has returned cannot occur and is a no-op; a
`finish` naming no in-flight worker likewise.  A worker that offers to
the channel after `close(h.processedChan)` is a send on a closed
channel, which panics; the panicked state absorbs every later event. -/
def dispatchStep (cfg : DispatchConfig) (e : DEvent) (s : DispatchState) :
    DispatchState :=
  if s.panicked then s else
  match e with
  | .read p =>
      if s.closed then s
      else if s.pending.length < cfg.workerCount then
        { s with attempts := s.attempts + 1, pending := s.pending ++ [p] }
      else
        { s with attempts := s.attempts + 1,
                 drops := s.drops + (if cfg.metricsEnabled then 1 else 0) }
  | .finish i t =>
      if i < s.pending.length then
        if s.closed then { s with panicked := true }
        else
          let p := s.pending.getD i []
          if s.queue.length < cfg.queueCap then
            if cfg.metricsEnabled then
              let pc := s.packetCounter + 1
              if metricsIntervalMs ≤ t - s.lastMetricTime then
                { s with pending := s.pending.eraseIdx i,
                         queue := s.queue ++ [p],
                         processedTotal := s.processedTotal + 1,
                         packetCounter := 0,
                         lastMetricTime := t,
                         reports := s.reports ++ [pc] }
              else
                { s with pending := s.pending.eraseIdx i,
                         queue := s.queue ++ [p],
                         processedTotal := s.processedTotal + 1,
                         packetCounter := pc }
            else
              { s with pending := s.pending.eraseIdx i,
                       queue := s.queue ++ [p] }
          else
            { s with pending := s.pending.eraseIdx i,
                     drops := s.drops + (if cfg.metricsEnabled then 1 else 0) }
      else s
  | .readErr =>
      if s.closed then s else { s with closed := true }

/-- Run the dispatch side over a schedule of events from a given state. -/
def dispatchRunFrom (cfg : DispatchConfig) : List DEvent → DispatchState →
    DispatchState
  | [], s => s
  | e :: es, s => dispatchRunFrom cfg es (dispatchStep cfg e s)

/-- Run the dispatch side over a schedule from the initial state. -/
def dispatchRun (cfg : DispatchConfig) (events : List DEvent) : DispatchState :=
  dispatchRunFrom cfg events initDispatch

/-! ### The batching writer `writeToFFmpeg` -/

/-- The state of the writer goroutine `writeToFFmpeg`.

`batch` is the local `batch` slice; `sink` the sequence of payloads
successfully written to `h.ffmpegStdin`, in write order; `oracle` the
outcomes the sink will give to the next write calls (`true` = the
write returns no error), with an exhausted oracle meaning every further
write succeeds; `terminated` records that the function has returned. -/
structure WriterState where
  batch : List Payload
  sink : List Payload
  oracle : List Bool
  terminated : Bool
  deriving Repr, DecidableEq

/-- The writer's state when `writeToFFmpeg` starts, against a sink
whose write outcomes are given by `oracle`. -/
def startWriter (oracle : List Bool) : WriterState :=
  { batch := [], sink := [], oracle := oracle, terminated := false }

/-- The writer's state when `writeToFFmpeg` starts against a sink that
never fails. -/
def initWriter : WriterState := startWriter []

/-- The loop inside `flushBatch`: write the payloads one after the
other; a failed write stops the loop at once (`return`), leaving the
remaining payloads unwritten.  Returns the sink contents, the remaining
oracle, and whether every write succeeded. -/
def writeSeq : List Payload → List Payload → List Bool →
    List Payload × List Bool × Bool
  | [], sink, oracle => (sink, oracle, true)
  | p :: rest, sink, oracle =>
      match oracle with
      | [] => writeSeq rest (sink ++ [p]) []
      | true :: oracle => writeSeq rest (sink ++ [p]) oracle
      | false :: oracle => (sink, oracle, false)

/-- The `flushBatch` closure of `writeToFFmpeg`: an empty batch does
nothing; otherwise each payload is written in batch order, and only
when every write succeeded is the batch cleared (`batch = batch[:0]`).
A write error makes the closure return early, with the batch kept as it
was — including the payloads already written. -/
def flushBatch (s : WriterState) : WriterState :=
  if s.batch.isEmpty then s
  else
    match writeSeq s.batch s.sink s.oracle with
    | (sink, oracle, true) => { s with batch := [], sink := sink, oracle := oracle }
    | (sink, oracle, false) => { s with sink := sink, oracle := oracle }

/-- Atomic events of the writer goroutine's `select` loop.

`deliver p` is a receive of payload `p` from `processedChan` with
`ok = true` (a successful drain of the handoff queue); `tick` is a
ticker expiry; `closeEv` is the receive with `ok = false`, possible
once the channel is closed and its buffer drained. -/
inductive WEvent where
  | deliver (p : Payload)
  | tick
  | closeEv
  deriving Repr, DecidableEq

/-- One iteration of the writer's `select` loop.  After the function
has returned, no further event has any effect. -/
def writerStep (e : WEvent) (s : WriterState) : WriterState :=
  if s.terminated then s else
  match e with
  | .deliver p =>
      let s := { s with batch := s.batch ++ [p] }
      if batchSize ≤ s.batch.length then flushBatch s else s
  | .tick => flushBatch s
  | .closeEv => { flushBatch s with terminated := true }

/-- Run the writer over a sequence of events from a given state. -/
def writerRunFrom : List WEvent → WriterState → WriterState
  | [], s => s
  | e :: es, s => writerRunFrom es (writerStep e s)

/-- Run the writer over a sequence of events against a never-failing
sink. -/
def writerRun (events : List WEvent) : WriterState :=
  writerRunFrom events initWriter

/-- The payloads drained from the handoff queue during a sequence of
writer events, in drain order. -/
def delivered (events : List WEvent) : List Payload :=
  events.filterMap fun e =>
    match e with
    | .deliver p => some p
    | _ => none

/-! ### Writer lemmas -/

theorem delivered_nil : delivered [] = [] := rfl

theorem delivered_deliver (p : Payload) (es : List WEvent) :
    delivered (.deliver p :: es) = p :: delivered es := rfl

theorem delivered_tick (es : List WEvent) :
    delivered (.tick :: es) = delivered es := rfl

theorem writerRunFrom_append (es fs : List WEvent) :
    ∀ s : WriterState, writerRunFrom (es ++ fs) s = writerRunFrom fs (writerRunFrom es s) := by
  induction es with
  | nil => intro s; rfl
  | cons e es ih => intro s; simp only [List.cons_append, writerRunFrom]; exact ih _

theorem writeSeq_success (b : List Payload) :
    ∀ sink : List Payload, writeSeq b sink [] = (sink ++ b, [], true) := by
  induction b with
  | nil => intro sink; simp [writeSeq]
  | cons p rest ih =>
      intro sink
      simp only [writeSeq, ih]
      simp

/-- Against a sink with no pending failure, `flushBatch` writes the
whole batch in order and clears it. -/
theorem flushBatch_success (s : WriterState) (h : s.oracle = []) :
    flushBatch s = { s with batch := [], sink := s.sink ++ s.batch } := by
  obtain ⟨b, sink, oracle, term⟩ := s
  simp only at h
  subst h
  cases b with
  | nil => simp [flushBatch]
  | cons p rest => simp [flushBatch, writeSeq_success]

/-- `flushBatch` on a non-failing sink, stated on the constructor. -/
theorem flushBatch_mk_nil (b sink : List Payload) (t : Bool) :
    flushBatch ⟨b, sink, [], t⟩ = ⟨[], sink ++ b, [], t⟩ :=
  flushBatch_success ⟨b, sink, [], t⟩ rfl

theorem writerStep_deliver (b sink : List Payload) (or : List Bool) (p : Payload) :
    writerStep (.deliver p) ⟨b, sink, or, false⟩
      = if batchSize ≤ (b ++ [p]).length then flushBatch ⟨b ++ [p], sink, or, false⟩
        else ⟨b ++ [p], sink, or, false⟩ := rfl

theorem writerStep_tick (b sink : List Payload) (or : List Bool) :
    writerStep .tick ⟨b, sink, or, false⟩ = flushBatch ⟨b, sink, or, false⟩ := rfl

theorem writerStep_closeEv (b sink : List Payload) (or : List Bool) :
    writerStep .closeEv ⟨b, sink, or, false⟩
      = { flushBatch ⟨b, sink, or, false⟩ with terminated := true } := rfl

theorem writerStep_term (e : WEvent) (b sink : List Payload) (or : List Bool) :
    writerStep e ⟨b, sink, or, true⟩ = ⟨b, sink, or, true⟩ := by
  cases e <;> rfl

/-- Against a sink with no pending failure, one writer step keeps the
sink non-failing and non-terminated (when the event is not the closure
receive) and preserves the drain order: the sink followed by the batch
is always the previous contents extended by what the event delivered. -/
theorem writerStep_ok (e : WEvent) (s : WriterState) (ho : s.oracle = [])
    (ht : s.terminated = false) (hne : e ≠ WEvent.closeEv) :
    (writerStep e s).oracle = [] ∧ (writerStep e s).terminated = false ∧
    (writerStep e s).sink ++ (writerStep e s).batch
      = s.sink ++ s.batch ++ delivered [e] := by
  obtain ⟨b, sink, oracle, term⟩ := s
  simp only at ho ht
  subst ho; subst ht
  cases e with
  | deliver p =>
      rw [writerStep_deliver]
      by_cases hlen : batchSize ≤ (b ++ [p]).length
      · rw [if_pos hlen, flushBatch_mk_nil]
        simp [delivered, List.append_assoc]
      · rw [if_neg hlen]
        simp [delivered, List.append_assoc]
  | tick =>
      rw [writerStep_tick, flushBatch_mk_nil]
      simp [delivered]
  | closeEv => exact absurd rfl hne

/-- Against a sink with no pending failure, a run of writer events free
of the closure receive never terminates the writer and maintains the
drain-order invariant. -/
theorem writerRunFrom_ok (events : List WEvent) :
    ∀ s : WriterState, WEvent.closeEv ∉ events → s.oracle = [] →
      s.terminated = false →
      (writerRunFrom events s).oracle = [] ∧
      (writerRunFrom events s).terminated = false ∧
      (writerRunFrom events s).sink ++ (writerRunFrom events s).batch
        = s.sink ++ s.batch ++ delivered events := by
  induction events with
  | nil => intro s _ ho ht; simpa [writerRunFrom, delivered] using ⟨ho, ht⟩
  | cons e es ih =>
      intro s hnc ho ht
      have hne : e ≠ WEvent.closeEv := fun h => hnc (h ▸ List.mem_cons_self e es)
      have hes : WEvent.closeEv ∉ es := fun h => hnc (List.mem_cons_of_mem e h)
      obtain ⟨ho1, ht1, hs1⟩ := writerStep_ok e s ho ht hne
      obtain ⟨ho2, ht2, hs2⟩ := ih (writerStep e s) hes ho1 ht1
      refine ⟨ho2, ht2, ?_⟩
      rw [writerRunFrom, hs2, hs1]
      cases e with
      | deliver p => simp [delivered, List.append_assoc]
      | tick => simp [delivered]
      | closeEv => exact absurd rfl hne

/-- Against a sink with no pending failure, the batch stays strictly
below the size threshold after every writer step. -/
theorem writerRunFrom_batch_lt (events : List WEvent) :
    ∀ s : WriterState, s.oracle = [] → s.batch.length < batchSize →
      (writerRunFrom events s).oracle = [] ∧
      (writerRunFrom events s).batch.length < batchSize := by
  induction events with
  | nil => intro s ho hb; exact ⟨ho, hb⟩
  | cons e es ih =>
      intro s ho hb
      rw [writerRunFrom]
      have hstep : (writerStep e s).oracle = [] ∧
          (writerStep e s).batch.length < batchSize := by
        obtain ⟨b, sink, oracle, term⟩ := s
        simp only at ho hb
        subst ho
        cases term with
        | true => rw [writerStep_term]; exact ⟨rfl, hb⟩
        | false =>
          cases e with
          | deliver p =>
              rw [writerStep_deliver]
              by_cases hlen : batchSize ≤ (b ++ [p]).length
              · rw [if_pos hlen, flushBatch_mk_nil]
                exact ⟨rfl, by simp [batchSize]⟩
              · rw [if_neg hlen]
                exact ⟨rfl, by simpa using Nat.lt_of_not_le hlen⟩
          | tick =>
              rw [writerStep_tick, flushBatch_mk_nil]
              exact ⟨rfl, by simp [batchSize]⟩
          | closeEv =>
              rw [writerStep_closeEv, flushBatch_mk_nil]
              exact ⟨rfl, by simp [batchSize]⟩
      exact ih _ hstep.1 hstep.2

/-- Against a sink with no pending failure, delivering one payload and
then letting the ticker expire leaves the batch flushed: everything,
including that payload, has been written. -/
theorem writer_deliver_tick (s : WriterState) (p : Payload) (ho : s.oracle = [])
    (ht : s.terminated = false) :
    writerRunFrom [.deliver p, .tick] s
      = { s with batch := [], sink := s.sink ++ (s.batch ++ [p]) } := by
  obtain ⟨b, sink, oracle, term⟩ := s
  simp only at ho ht
  subst ho; subst ht
  show writerStep .tick (writerStep (.deliver p) ⟨b, sink, [], false⟩) = _
  rw [writerStep_deliver]
  by_cases hlen : batchSize ≤ (b ++ [p]).length
  · rw [if_pos hlen, flushBatch_mk_nil, writerStep_tick]
    rfl
  · rw [if_neg hlen, writerStep_tick, flushBatch_mk_nil]

/-- Against a sink with no pending failure, the closure receive flushes
whatever is batched and returns from `writeToFFmpeg`. -/
theorem writerStep_closeEv_ok (s : WriterState) (ho : s.oracle = [])
    (ht : s.terminated = false) :
    writerStep .closeEv s
      = { s with batch := [], sink := s.sink ++ s.batch, terminated := true } := by
  obtain ⟨b, sink, oracle, term⟩ := s
  simp only at ho ht
  subst ho; subst ht
  rw [writerStep_closeEv, flushBatch_mk_nil]

/-- `flushBatch` against a sink that accepts `k` writes and then fails:
the loop stops at the failed write, the payloads before it are on the
sink, and the batch is left as it was. -/
theorem writeSeq_fail (k : Nat) :
    ∀ (b sink : List Payload) (rest : List Bool), k < b.length →
      writeSeq b sink (List.replicate k true ++ false :: rest)
        = (sink ++ b.take k, rest, false) := by
  induction k with
  | zero =>
      intro b sink rest hk
      cases b with
      | nil => simp at hk
      | cons p rest2 => simp [writeSeq]
  | succ k ih =>
      intro b sink rest hk
      cases b with
      | nil => simp at hk
      | cons p rest2 =>
          simp only [List.replicate, List.cons_append, writeSeq]
          rw [ih rest2 (sink ++ [p]) rest (by simpa using Nat.lt_of_succ_lt_succ hk)]
          simp

/-- `flushBatch` on a batch of which only the first `k` payloads get
written before the sink fails. -/
theorem flushBatch_fail (b sink0 : List Payload) (k : Nat) (hk : k < b.length) :
    flushBatch ⟨b, sink0, List.replicate k true ++ [false], false⟩
      = ⟨b, sink0 ++ b.take k, [], false⟩ := by
  have hw := writeSeq_fail k b sink0 [] hk
  cases b with
  | nil => simp at hk
  | cons p rest =>
      simp only [flushBatch, List.isEmpty_cons, Bool.false_eq_true, if_false]
      rw [hw]

/-! ### Claims about the batching writer -/

/-- Claim C3: for every sequence of payloads successfully drained from
the handoff queue, the sink observes the writes in exactly that drain
order.  In the model: after any run of writer events (drains and ticks,
the queue not yet closed) against a never-failing sink, the payloads
written to the sink followed by the payloads still batched are exactly
the drained payloads in drain order — so every flush writes a further
segment of the drain sequence, in order. -/
theorem c3_fifo_writer_order (events : List WEvent)
    (hnc : WEvent.closeEv ∉ events) :
    (writerRun events).sink ++ (writerRun events).batch = delivered events := by
  have h := (writerRunFrom_ok events initWriter hnc rfl rfl).2.2
  simpa [writerRun, initWriter, startWriter] using h

/-- Witness for C3 on a concrete drain/tick schedule. -/
theorem c3_witness :
    WEvent.closeEv ∉ [WEvent.deliver [1], WEvent.tick, WEvent.deliver [2]] ∧
    (writerRun [WEvent.deliver [1], WEvent.tick, WEvent.deliver [2]]).sink
        ++ (writerRun [WEvent.deliver [1], WEvent.tick, WEvent.deliver [2]]).batch
      = delivered [WEvent.deliver [1], WEvent.tick, WEvent.deliver [2]] :=
  ⟨by decide, c3_fifo_writer_order _ (by decide)⟩

/-- Claim C4: appending a drained payload that makes the batch reach
`batchSize = 5` flushes immediately — every batched payload is written
to the sink in batch order and the batch is cleared, within the deliver
step itself (no tick needed) — and along any run against a
never-failing sink the batch stays strictly below the threshold. -/
theorem c4_size_triggered_flush :
    (∀ events : List WEvent, (writerRun events).batch.length < batchSize) ∧
    (∀ (s : WriterState) (p : Payload), s.oracle = [] → s.terminated = false →
      s.batch.length + 1 = batchSize →
      writerStep (.deliver p) s
        = { s with batch := [], sink := s.sink ++ (s.batch ++ [p]) }) := by
  constructor
  · intro events
    exact (writerRunFrom_batch_lt events initWriter rfl
      (by simp [initWriter, startWriter, batchSize])).2
  · intro s p ho ht hb
    obtain ⟨b, sink, oracle, term⟩ := s
    simp only at ho ht hb
    subst ho; subst ht
    rw [writerStep_deliver,
      if_pos (by simp only [List.length_append, List.length_cons,
        List.length_nil]; omega),
      flushBatch_mk_nil]

/-- Witness for C4: the fifth payload triggers the flush. -/
theorem c4_witness :
    (⟨[[9], [9], [9], [9]], [], [], false⟩ : WriterState).batch.length + 1
        = batchSize ∧
    writerStep (WEvent.deliver [5]) ⟨[[9], [9], [9], [9]], [], [], false⟩
      = { (⟨[[9], [9], [9], [9]], [], [], false⟩ : WriterState) with
          batch := [], sink := [] ++ ([[9], [9], [9], [9]] ++ [[5]]) } :=
  ⟨by decide, c4_size_triggered_flush.2 _ _ rfl rfl (by decide)⟩

/-- Claim C5: on a ticker expiry a non-empty batch is flushed even
below the size threshold, and an empty batch causes no sink write (the
step is a no-op); consequently, at the event level, a payload delivered
to the batch has been written by the next tick even with no further
traffic — the flush timer fires every `flushIntervalMs = 5`
milliseconds, so the payload waits at most one flush interval. -/
theorem c5_timer_flush :
    (∀ s : WriterState, s.oracle = [] → s.terminated = false →
      writerStep .tick s = { s with batch := [], sink := s.sink ++ s.batch }) ∧
    (∀ s : WriterState, s.batch = [] → writerStep .tick s = s) ∧
    (∀ (events : List WEvent) (p : Payload), WEvent.closeEv ∉ events →
      (writerRun (events ++ [.deliver p, .tick])).batch = [] ∧
      (writerRun (events ++ [.deliver p, .tick])).sink
        = delivered events ++ [p]) := by
  refine ⟨?_, ?_, ?_⟩
  · intro s ho ht
    obtain ⟨b, sink, oracle, term⟩ := s
    simp only at ho ht
    subst ho; subst ht
    rw [writerStep_tick, flushBatch_mk_nil]
  · intro s hb
    obtain ⟨b, sink, oracle, term⟩ := s
    simp only at hb
    subst hb
    cases term with
    | true => rw [writerStep_term]
    | false => rw [writerStep_tick]; simp [flushBatch]
  · intro events p hnc
    obtain ⟨ho, ht, hs⟩ := writerRunFrom_ok events initWriter hnc rfl rfl
    have hdt := writer_deliver_tick (writerRunFrom events initWriter) p ho ht
    simp only [writerRun]
    rw [writerRunFrom_append, hdt]
    refine ⟨rfl, ?_⟩
    show (writerRunFrom events initWriter).sink
        ++ ((writerRunFrom events initWriter).batch ++ [p]) = _
    rw [← List.append_assoc, hs]
    simp [initWriter, startWriter]

/-- Witness for C5 on a concrete schedule: one drained payload followed
by another and a tick. -/
theorem c5_witness :
    WEvent.closeEv ∉ [WEvent.deliver [1]] ∧
    ((writerRun ([WEvent.deliver [1]]
        ++ [WEvent.deliver [2], WEvent.tick])).batch = [] ∧
     (writerRun ([WEvent.deliver [1]]
        ++ [WEvent.deliver [2], WEvent.tick])).sink
       = delivered [WEvent.deliver [1]] ++ [[2]]) :=
  ⟨by decide, c5_timer_flush.2.2 [WEvent.deliver [1]] [2] (by decide)⟩

/-- Claim C6: when the handoff queue is closed, every payload drained
before the closure receive is on the sink exactly once — the closure
receive performs one final flush of the remaining batch and the writer
returns.  In the model the buffered payloads still in the channel at
`close` time are exactly the deliver events before `closeEv`, since a
closed Go channel yields its buffered values before reporting
`ok = false`; the final sink equals the full drain sequence (no loss,
no double write) and the writer is terminated. -/
theorem c6_graceful_drain (events : List WEvent)
    (hnc : WEvent.closeEv ∉ events) :
    (writerRun (events ++ [.closeEv])).terminated = true ∧
    (writerRun (events ++ [.closeEv])).sink = delivered events ∧
    (writerRun (events ++ [.closeEv])).batch = [] := by
  obtain ⟨ho, ht, hs⟩ := writerRunFrom_ok events initWriter hnc rfl rfl
  have h2 := writerStep_closeEv_ok (writerRunFrom events initWriter) ho ht
  simp only [writerRun]
  rw [writerRunFrom_append]
  rw [show writerRunFrom [WEvent.closeEv] (writerRunFrom events initWriter)
      = writerStep .closeEv (writerRunFrom events initWriter) from rfl, h2]
  refine ⟨rfl, ?_, rfl⟩
  show (writerRunFrom events initWriter).sink
      ++ (writerRunFrom events initWriter).batch = delivered events
  rw [hs]
  simp [initWriter, startWriter]

/-- Witness for C6 on a concrete drain schedule followed by closure. -/
theorem c6_witness :
    WEvent.closeEv ∉ [WEvent.deliver [3], WEvent.tick, WEvent.deliver [4]] ∧
    ((writerRun ([WEvent.deliver [3], WEvent.tick, WEvent.deliver [4]]
        ++ [WEvent.closeEv])).terminated = true ∧
     (writerRun ([WEvent.deliver [3], WEvent.tick, WEvent.deliver [4]]
        ++ [WEvent.closeEv])).sink
       = delivered [WEvent.deliver [3], WEvent.tick, WEvent.deliver [4]] ∧
     (writerRun ([WEvent.deliver [3], WEvent.tick, WEvent.deliver [4]]
        ++ [WEvent.closeEv])).batch = []) :=
  ⟨by decide, c6_graceful_drain _ (by decide)⟩

/-- Claim C7 (evaluation at the failing input): a write failure to the
sink is NOT fatal to the writer in the code — the `return` in
`flushBatch` only leaves the closure, not `writeToFFmpeg`.  Concretely:
five drained payloads trigger a size flush against a sink that accepts
one write and then fails once; the loop keeps running
(`terminated = false`), the batch is retained, and the next tick writes
the whole batch again, so the sink receives
`[a, a, b, c, d, e]` — payload `a` twice — instead of the writer
terminating after the failure. -/
theorem c7_sink_failure_keeps_writer_running (a b c d e : Payload) :
    writerRunFrom
        [.deliver a, .deliver b, .deliver c, .deliver d, .deliver e, .tick]
        (startWriter [true, false])
      = ⟨[], [a, a, b, c, d, e], [], false⟩ := by
  simp [writerRunFrom, writerStep, flushBatch, writeSeq, startWriter, batchSize]

/-- Claim C10: if a sink write fails partway through a flush (the sink
accepts `k` writes of the batch and then fails), `flushBatch` returns
without clearing the batch and the writer keeps running: the `k`
already-written payloads stay in the batch together with the unwritten
ones, and the next successful flush writes the whole batch again — the
sink ends with `b.take k` followed by `b`, i.e. the already-written
prefix appears twice. -/
theorem c10_failed_flush_duplicates (b sink0 : List Payload) (k : Nat)
    (hk : k < b.length) :
    writerStep .tick ⟨b, sink0, List.replicate k true ++ [false], false⟩
      = ⟨b, sink0 ++ b.take k, [], false⟩ ∧
    writerRunFrom [.tick, .tick] ⟨b, sink0, List.replicate k true ++ [false], false⟩
      = ⟨[], (sink0 ++ b.take k) ++ b, [], false⟩ := by
  have h1 : writerStep .tick
        (⟨b, sink0, List.replicate k true ++ [false], false⟩ : WriterState)
      = ⟨b, sink0 ++ b.take k, [], false⟩ := by
    rw [writerStep_tick, flushBatch_fail b sink0 k hk]
  refine ⟨h1, ?_⟩
  show writerStep .tick (writerStep .tick _) = _
  rw [h1, writerStep_tick, flushBatch_mk_nil]

/-! ### Dispatcher lemmas -/

/-- No dispatch event can push the number of in-flight workers above
the pool capacity. -/
theorem dispatchStep_pending_le (cfg : DispatchConfig) (e : DEvent)
    (s : DispatchState) (h : s.pending.length ≤ cfg.workerCount) :
    (dispatchStep cfg e s).pending.length ≤ cfg.workerCount := by
  unfold dispatchStep
  cases e <;> repeat' split
  all_goals
    first
      | exact h
      | exact le_trans (List.length_eraseIdx_le _ _) h
      | (simp only [List.length_append, List.length_cons, List.length_nil]
         omega)

theorem dispatchRunFrom_pending_le (cfg : DispatchConfig)
    (events : List DEvent) :
    ∀ s : DispatchState, s.pending.length ≤ cfg.workerCount →
      (dispatchRunFrom cfg events s).pending.length ≤ cfg.workerCount := by
  induction events with
  | nil => intro s h; exact h
  | cons e es ih => intro s h; exact ih _ (dispatchStep_pending_le cfg e s h)

/-- Once a worker has sent on the closed channel the process has
panicked, and no further event changes the state. -/
theorem dispatchRunFrom_panicked (cfg : DispatchConfig) (events : List DEvent) :
    ∀ s : DispatchState, s.panicked = true →
      dispatchRunFrom cfg events s = s := by
  induction events with
  | nil => intro s _; rfl
  | cons e es ih =>
      intro s hs
      rw [dispatchRunFrom,
        show dispatchStep cfg e s = s from by unfold dispatchStep; rw [if_pos hs]]
      exact ih s hs

/-- The metrics accounting invariant: cumulative counter increments
plus drop events plus in-flight dispatches equal the dispatch attempts,
and the reported per-interval values together with the live counter
partition the cumulative count. -/
def accounted (s : DispatchState) : Prop :=
  s.processedTotal + s.drops + s.pending.length = s.attempts ∧
  s.reports.sum + s.packetCounter = s.processedTotal

/-- With metrics enabled, every non-panicking dispatch event preserves
the accounting invariant. -/
theorem dispatchStep_accounted (cfg : DispatchConfig) (e : DEvent)
    (s : DispatchState) (hm : cfg.metricsEnabled = true) (ha : accounted s)
    (hp : (dispatchStep cfg e s).panicked = false) :
    accounted (dispatchStep cfg e s) := by
  obtain ⟨h1, h2⟩ := ha
  by_cases hps : s.panicked = true
  · unfold dispatchStep
    rw [if_pos hps]
    exact ⟨h1, h2⟩
  · cases e with
    | read p =>
        by_cases hc : s.closed = true
        · simp only [dispatchStep, if_neg hps, if_pos hc]
          exact ⟨h1, h2⟩
        · by_cases hw : s.pending.length < cfg.workerCount
          · simp only [dispatchStep, if_neg hps, if_neg hc, if_pos hw]
            refine ⟨?_, h2⟩
            show s.processedTotal + s.drops + (s.pending ++ [p]).length
              = s.attempts + 1
            simp only [List.length_append, List.length_cons, List.length_nil]
            omega
          · simp only [dispatchStep, if_neg hps, if_neg hc, if_neg hw, hm,
              if_true]
            refine ⟨?_, h2⟩
            show s.processedTotal + (s.drops + 1) + s.pending.length
              = s.attempts + 1
            omega
    | finish i t =>
        by_cases hi : i < s.pending.length
        · by_cases hcl : s.closed = true
          · simp only [dispatchStep, if_neg hps, if_pos hi, if_pos hcl] at hp
            exact Bool.noConfusion hp
          · have hlen := List.length_eraseIdx_of_lt hi
            by_cases hq : s.queue.length < cfg.queueCap
            · by_cases ht : metricsIntervalMs ≤ t - s.lastMetricTime
              · simp only [dispatchStep, if_neg hps, if_pos hi, if_neg hcl,
                  if_pos hq, hm, if_true, if_pos ht]
                constructor
                · show s.processedTotal + 1 + s.drops
                    + (s.pending.eraseIdx i).length = s.attempts
                  omega
                · show (s.reports ++ [s.packetCounter + 1]).sum + 0
                    = s.processedTotal + 1
                  simp only [List.sum_append, List.sum_cons, List.sum_nil]
                  omega
              · simp only [dispatchStep, if_neg hps, if_pos hi, if_neg hcl,
                  if_pos hq, hm, if_true, if_neg ht]
                constructor
                · show s.processedTotal + 1 + s.drops
                    + (s.pending.eraseIdx i).length = s.attempts
                  omega
                · show s.reports.sum + (s.packetCounter + 1)
                    = s.processedTotal + 1
                  omega
            · simp only [dispatchStep, if_neg hps, if_pos hi, if_neg hcl,
                if_neg hq, hm]
              refine ⟨?_, h2⟩
              show s.processedTotal + (s.drops + 1)
                + (s.pending.eraseIdx i).length = s.attempts
              omega
        · simp only [dispatchStep, if_neg hps, if_neg hi]
          exact ⟨h1, h2⟩
    | readErr =>
        by_cases hc : s.closed = true
        · simp only [dispatchStep, if_neg hps, if_pos hc]
          exact ⟨h1, h2⟩
        · simp only [dispatchStep, if_neg hps, if_neg hc]
          exact ⟨h1, h2⟩

/-- With metrics enabled, the accounting invariant holds after any
panic-free run of dispatch events. -/
theorem dispatchRunFrom_accounted (cfg : DispatchConfig)
    (events : List DEvent) (hm : cfg.metricsEnabled = true) :
    ∀ s : DispatchState, accounted s →
      (dispatchRunFrom cfg events s).panicked = false →
      accounted (dispatchRunFrom cfg events s) := by
  induction events with
  | nil => intro s ha _; exact ha
  | cons e es ih =>
      intro s ha hp
      rw [dispatchRunFrom] at hp ⊢
      by_cases hps : (dispatchStep cfg e s).panicked = true
      · rw [dispatchRunFrom_panicked cfg es _ hps, hps] at hp
        exact absurd hp (by simp)
      · have hps2 : (dispatchStep cfg e s).panicked = false := by
          simpa using hps
        exact ih _ (dispatchStep_accounted cfg e s hm ha hps2) hp

/-! ### Claims about the dispatcher -/

/-- Claim C1: for every schedule of dispatched packets the number of
transforms in flight (`pending.length`, the occupancy of the `workers`
slot channel of capacity `workerCount`, 4 in `main`) never exceeds the
pool capacity; and the finish event — the worker's deferred
`<-workers` — releases the slot unconditionally, lowering the in-flight
count by exactly one whether or not the offer to the queue succeeded
(both the enqueue and the queue-full branches erase the worker). -/
theorem c1_bounded_concurrency (cfg : DispatchConfig) (events : List DEvent) :
    (dispatchRun cfg events).pending.length ≤ cfg.workerCount ∧
    (∀ (s : DispatchState) (i t : Nat), i < s.pending.length →
      s.panicked = false → s.closed = false →
      (dispatchStep cfg (.finish i t) s).pending.length + 1
        = s.pending.length) := by
  constructor
  · exact dispatchRunFrom_pending_le cfg events initDispatch
      (by simp [initDispatch])
  · intro s i t hi hp hc
    have hps : ¬s.panicked = true := by simp [hp]
    have hcl : ¬s.closed = true := by simp [hc]
    have hlen := List.length_eraseIdx_of_lt hi
    by_cases hq : s.queue.length < cfg.queueCap
    · by_cases hm : cfg.metricsEnabled = true
      · by_cases ht : metricsIntervalMs ≤ t - s.lastMetricTime
        · simp only [dispatchStep, if_neg hps, if_pos hi, if_neg hcl,
            if_pos hq, if_pos hm, if_pos ht]
          show (s.pending.eraseIdx i).length + 1 = s.pending.length
          omega
        · simp only [dispatchStep, if_neg hps, if_pos hi, if_neg hcl,
            if_pos hq, if_pos hm, if_neg ht]
          show (s.pending.eraseIdx i).length + 1 = s.pending.length
          omega
      · simp only [dispatchStep, if_neg hps, if_pos hi, if_neg hcl,
          if_pos hq, if_neg hm]
        show (s.pending.eraseIdx i).length + 1 = s.pending.length
        omega
    · simp only [dispatchStep, if_neg hps, if_pos hi, if_neg hcl, if_neg hq]
      show (s.pending.eraseIdx i).length + 1 = s.pending.length
      omega

/-- Witness for C1 on a concrete schedule and a concrete in-flight
state. -/
theorem c1_witness :
    (dispatchRun mainConfig [DEvent.read [1]]).pending.length
        ≤ mainConfig.workerCount ∧
    0 < (⟨[[1]], [], false, false, 0, 0, [], 0, 0, 1⟩ :
        DispatchState).pending.length ∧
    (dispatchStep mainConfig (DEvent.finish 0 0)
        ⟨[[1]], [], false, false, 0, 0, [], 0, 0, 1⟩).pending.length + 1
      = (⟨[[1]], [], false, false, 0, 0, [], 0, 0, 1⟩ :
        DispatchState).pending.length :=
  ⟨(c1_bounded_concurrency mainConfig [DEvent.read [1]]).1, by decide,
   (c1_bounded_concurrency mainConfig [DEvent.read [1]]).2 _ 0 0
     (by decide) rfl rfl⟩

/-- Claim C2: dispatch and queue-offer never block.  When the worker
pool is full (all `workerCount` slots taken), the `select` takes its
`default` branch at once: the read step only records the attempt and
the drop, regardless of the queue's state — in particular also when the
queue is simultaneously full.  When the handoff queue is at capacity,
the worker's `select` offer takes its `default` branch: the payload is
discarded with a drop recorded, the queue untouched and the slot
released; nothing is retried. -/
theorem c2_nonblocking_drops (cfg : DispatchConfig) (s : DispatchState)
    (hm : cfg.metricsEnabled = true) (hp : s.panicked = false)
    (hc : s.closed = false) :
    (∀ p : Payload, cfg.workerCount ≤ s.pending.length →
      dispatchStep cfg (.read p) s
        = { s with attempts := s.attempts + 1, drops := s.drops + 1 }) ∧
    (∀ i t : Nat, i < s.pending.length → cfg.queueCap ≤ s.queue.length →
      dispatchStep cfg (.finish i t) s
        = { s with pending := s.pending.eraseIdx i,
                   drops := s.drops + 1 }) := by
  have hps : ¬s.panicked = true := by simp [hp]
  have hcl : ¬s.closed = true := by simp [hc]
  constructor
  · intro p hw
    simp only [dispatchStep, if_neg hps, if_neg hcl,
      if_neg (Nat.not_lt.mpr hw), hm, if_true]
  · intro i t hi hq
    simp only [dispatchStep, if_neg hps, if_pos hi, if_neg hcl,
      if_neg (Nat.not_lt.mpr hq), hm, if_true]

/-- A dispatcher state in which the worker pool of `mainConfig` and the
handoff queue are both saturated. -/
def saturatedState : DispatchState :=
  { pending := [[1], [2], [3], [4]], queue := List.replicate 100 [0],
    closed := false, panicked := false, packetCounter := 0,
    lastMetricTime := 0, reports := [], drops := 0, processedTotal := 0,
    attempts := 4 }

/-- Witness for C2 at the doubly saturated state. -/
theorem c2_witness :
    mainConfig.workerCount ≤ saturatedState.pending.length ∧
    dispatchStep mainConfig (DEvent.read [9]) saturatedState
      = { saturatedState with attempts := saturatedState.attempts + 1,
                              drops := saturatedState.drops + 1 } ∧
    mainConfig.queueCap ≤ saturatedState.queue.length ∧
    dispatchStep mainConfig (DEvent.finish 0 0) saturatedState
      = { saturatedState with
          pending := saturatedState.pending.eraseIdx 0,
          drops := saturatedState.drops + 1 } :=
  ⟨by decide,
   (c2_nonblocking_drops mainConfig saturatedState rfl rfl rfl).1 [9]
     (by decide),
   by decide,
   (c2_nonblocking_drops mainConfig saturatedState rfl rfl rfl).2 0 0
     (by decide) (by decide)⟩

/-- Claim C8 (evaluation at the failing input): the code closes
`processedChan` by `defer` as soon as the read loop returns, WITHOUT
waiting for in-flight worker goroutines — no producer count is tracked.
Concretely: one packet is dispatched to a worker, then `ReadRTP` fails;
the deferred `close` runs while the worker is still pending
(`pending = [p]`), and when that worker then performs its offer it
sends on a closed channel — a runtime panic — contradicting the claim
that the queue is closed only after all producers have finished and
that no offer is ever attempted on a closed queue. -/
theorem c8_close_races_pending_worker (p : Payload) :
    (dispatchRun mainConfig [.read p, .readErr]).closed = true ∧
    (dispatchRun mainConfig [.read p, .readErr]).pending = [p] ∧
    (dispatchRun mainConfig [.read p, .readErr, .finish 0 0]).panicked
      = true :=
  ⟨rfl, rfl, rfl⟩

/-- Claim C9 counterexample: the code does not maintain counters with
`processed + dropped = attempts` under the reset-on-report cadence.
One packet is dispatched and processed at `t = 1500` ms: the report
fires (`reports = [1]`) and resets `packetCounter` to zero, after which
the processed counter plus the drops total `0` while one dispatch
attempt was made.  (The code moreover keeps no dropped counter at all:
drops are only printed as they occur.) -/
theorem c9_reset_breaks_sum :
    (dispatchRun mainConfig [.read [7], .finish 0 1500]).attempts = 1 ∧
    (dispatchRun mainConfig [.read [7], .finish 0 1500]).packetCounter
        + (dispatchRun mainConfig [.read [7], .finish 0 1500]).drops = 0 ∧
    (dispatchRun mainConfig [.read [7], .finish 0 1500]).reports = [1] := by
  decide

/-- Claim C9 as amended: with metrics enabled, over any panic-free
schedule the CUMULATIVE number of processed-counter increments plus
drop events plus still-in-flight dispatches equals the number of
dispatch attempts (so once all dispatched workers have finished,
processed + dropped = attempts); and the reported per-second values
together with the current counter value partition the cumulative
processed count — only the processed counter is reset at each report,
while drops are emitted as unaggregated events. -/
theorem c9_cumulative_accounting (cfg : DispatchConfig)
    (events : List DEvent) (hm : cfg.metricsEnabled = true)
    (hp : (dispatchRun cfg events).panicked = false) :
    (dispatchRun cfg events).processedTotal + (dispatchRun cfg events).drops
        + (dispatchRun cfg events).pending.length
      = (dispatchRun cfg events).attempts ∧
    (dispatchRun cfg events).reports.sum
        + (dispatchRun cfg events).packetCounter
      = (dispatchRun cfg events).processedTotal :=
  dispatchRunFrom_accounted cfg events hm initDispatch ⟨rfl, rfl⟩ hp

/-- Witness for C9's amended statement on a concrete schedule with a
drop, a processed packet and a report. -/
theorem c9_witness :
    mainConfig.metricsEnabled = true ∧
    (dispatchRun mainConfig [DEvent.read [7], DEvent.finish 0 1500]).panicked
        = false ∧
    ((dispatchRun mainConfig [DEvent.read [7], DEvent.finish 0 1500]).processedTotal
        + (dispatchRun mainConfig [DEvent.read [7], DEvent.finish 0 1500]).drops
        + (dispatchRun mainConfig
            [DEvent.read [7], DEvent.finish 0 1500]).pending.length
      = (dispatchRun mainConfig [DEvent.read [7], DEvent.finish 0 1500]).attempts ∧
     (dispatchRun mainConfig [DEvent.read [7], DEvent.finish 0 1500]).reports.sum
        + (dispatchRun mainConfig
            [DEvent.read [7], DEvent.finish 0 1500]).packetCounter
      = (dispatchRun mainConfig
            [DEvent.read [7], DEvent.finish 0 1500]).processedTotal) :=
  ⟨rfl, by decide,
   c9_cumulative_accounting mainConfig [DEvent.read [7], DEvent.finish 0 1500]
     rfl (by decide)⟩

/-- Witness for C10: a three-payload batch, sink failing at the second
write. -/
theorem c10_witness :
    (1 : Nat) < ([[1], [2], [3]] : List Payload).length ∧
    writerRunFrom [WEvent.tick, WEvent.tick]
        ⟨[[1], [2], [3]], [], List.replicate 1 true ++ [false], false⟩
      = ⟨[], ([] ++ ([[1], [2], [3]] : List Payload).take 1) ++ [[1], [2], [3]],
          [], false⟩ :=
  ⟨by decide, (c10_failed_flush_duplicates [[1], [2], [3]] [] 1 (by decide)).2⟩

end StreamPipeline
